import Mathlib

/-!
cwl-inspector: the path resolution and dispatch engine.

Shallow embedding of `src/cwl_inspector.py`.  Parsed CWL documents are
Python objects whose attributes live in `__dict__`; we model them as
`Value.node` with an association list of fields.  Python lists become
`Value.list`, scalars become `Value.str` / `Value.int` / `Value.bool`,
and Python `None` becomes `Value.null`.

`inspect_position` mutates the document in place in one case (filling a
missing `position` attribute on an `inputBinding` node); we make that
explicit by returning, next to the result, the updated document.
Raised exceptions become `Except.error` values of the `Err` type.
-/

namespace CwlInspector

/-- A parsed document value: Python scalars, `None`, lists, and objects
whose attributes (`__dict__`) are an insertion-ordered association list. -/
inductive Value where
  | null
  | bool (b : Bool)
  | int (n : Int)
  | str (s : String)
  | list (elems : List Value)
  | node (fields : List (String × Value))
deriving Repr

/-- Errors raised by the inspector.  Each constructor records which Python
exception it stands for; `noSuchField` and `unknownQuery` and `invalidPos`
carry the same string that the Python f-string interpolates. -/
inductive Err where
  /-- `Exception(f'No such field {pos}')` raised by `inspect_position`. -/
  | noSuchField (pos : String)
  /-- Python `AttributeError` (missing attribute, `__dict__` on a
  non-object, or `.group` on a failed regex match, i.e. on `None`). -/
  | attrError
  /-- Python `TypeError` (e.g. joining or sorting non-strings). -/
  | typeError
  /-- usage errors for `commandline` forms against the wrong class. -/
  | usage (msg : String)
  /-- `Exception(f'Invalid pos {pos}')` raised by `ls_outputs_for_command`. -/
  | invalidPos (pos : String)
  /-- `raise 'Not yet supported for outputs without outputBinding'`. -/
  | unsupportedOutput
  /-- the explicit `Not yet implemented` exceptions. -/
  | notImplemented (msg : String)
  /-- `Exception(f'Unknown pos: {pos}')`: the fall-through dispatcher case. -/
  | unknownQuery (pos : String)
  /-- `Exception(f'Unsupported class {...}')`. -/
  | unsupportedClass
deriving Repr, DecidableEq

/-- Split a character list on a separator, like Python `str.split` with
a one-character separator: `"" -> [""]`, separators at the ends produce
empty groups.  (Structural recursion so that concrete queries reduce
inside the kernel.) -/
def splitOnChar (sep : Char) : List Char → List (List Char)
  | [] => [[]]
  | c :: rest =>
    if c = sep then [] :: splitOnChar sep rest
    else
      match splitOnChar sep rest with
      | [] => [[c]]
      | g :: gs => (c :: g) :: gs

/-- `os.path.basename`: the part of a path after the last `/`. -/
def basename (s : String) : String :=
  String.mk ((splitOnChar (Char.ofNat 47) s.data).getLastD s.data)

/-- `int(po)` on a digit string. -/
def segToNat (po : String) : Nat :=
  po.data.foldl (fun n c => n * 10 + (c.toNat - 48)) 0

/-- `pos[1:].split('.')`. -/
def pathSegs (pos : String) : List String :=
  (splitOnChar (Char.ofNat 46) (pos.data.drop 1)).map String.mk

/-- `s.startswith(pre)` (structural, kernel-reducible). -/
def strStartsWith (s pre : String) : Bool :=
  pre.data.isPrefixOf s.data

/-- `s.endswith(suf)` (structural, kernel-reducible). -/
def strEndsWith (s suf : String) : Bool :=
  suf.data.isSuffixOf s.data

/-- Drop the first `n` characters. -/
def strDrop (s : String) (n : Nat) : String :=
  String.mk (s.data.drop n)

/-- Drop the last `n` characters. -/
def strDropRight (s : String) (n : Nat) : String :=
  String.mk (s.data.take (s.data.length - n))

/-- The number of characters of `s`. -/
def strLength (s : String) : Nat :=
  s.data.length

/-- First-match lookup in an attribute list (`obj.__dict__[k]`). -/
def lookupField (fields : List (String × Value)) (k : String) : Option Value :=
  match fields with
  | [] => none
  | (k', v) :: rest => if k' = k then some v else lookupField rest k

/-- Replace the value of the first binding of `k` (Python attribute
assignment on an existing key keeps its slot). -/
def updateField (fields : List (String × Value)) (k : String) (v : Value) :
    List (String × Value) :=
  match fields with
  | [] => []
  | (k', v') :: rest =>
    if k' = k then (k', v) :: rest else (k', v') :: updateField rest k v

/-- `re.match('^\d+$', po)`: the segment is a non-empty run of digits.
(Python `\d` also accepts non-ASCII decimal digits; the documents in
scope use ASCII.) -/
def isIntSeg (po : String) : Bool :=
  po ≠ "" && po.data.all Char.isDigit

/-- `next((f for f in cur_obj if os.path.basename(f.id) == po), None)`:
scan the list in order for the first element whose `id`'s basename is
`po`, returning its index.  Evaluating `f.id` on an element without the
attribute raises `AttributeError`; `os.path.basename` of a non-string
raises `TypeError`.  The generator is lazy, so elements after the first
match are never inspected. -/
def findById (elems : List Value) (po : String) : Except Err (Option Nat) :=
  match elems with
  | [] => .ok none
  | f :: rest =>
    match f with
    | .node fs =>
      match lookupField fs "id" with
      | some (.str s) =>
        if basename s = po then .ok (some 0)
        else (findById rest po).map (fun r => r.map (· + 1))
      | some _ => .error .typeError
      | none => .error .attrError
    | _ => .error .attrError

/-- The body of `inspect_position`'s loop, over an already-split list of
segments.  Returns the loop's result (or the raised exception) together
with the updated document: Python mutates the shared object in place when
it fills a default `inputBinding.position`, and that write persists even
when a later segment raises. -/
def resolveGo (cur : Value) (segs : List String) (pos : String) :
    (Except Err Value) × Value :=
  match segs with
  | [] => (.ok cur, cur)
  | po :: rest =>
    if isIntSeg po then
      match cur with
      | .list vs =>
        if h : segToNat po < vs.length then
          ((resolveGo (vs.get ⟨segToNat po, h⟩) rest pos).1,
           .list (vs.set (segToNat po) (resolveGo (vs.get ⟨segToNat po, h⟩) rest pos).2))
        else (.error (.noSuchField pos), cur)
      | _ => (.error (.noSuchField pos), cur)
    else
      match cur with
      | .list vs =>
        match findById vs po with
        | .ok (some i) =>
          if h : i < vs.length then
            ((resolveGo (vs.get ⟨i, h⟩) rest pos).1,
             .list (vs.set i (resolveGo (vs.get ⟨i, h⟩) rest pos).2))
          else (.error (.noSuchField pos), cur)
        | .ok none => (.error (.noSuchField pos), cur)
        | .error e => (.error e, cur)
      | .node fs =>
        match lookupField fs (if po = "class" then "class_" else po) with
        | none => (.error (.noSuchField pos), cur)
        | some val =>
          match val with
          | .str s =>
            if (if po = "class" then "class_" else po) = "basecommand" then
              -- rule A wraps the scalar in a fresh list; the document keeps
              -- the scalar, so mutations below the wrapper are impossible
              -- (every deeper step on a string raises).
              ((resolveGo (.list [.str s]) rest pos).1, cur)
            else if (if po = "class" then "class_" else po) = "inputBinding" then
              -- `cur_obj.inputBinding.__dict__` on a string attribute.
              (.error .attrError, cur)
            else
              ((resolveGo (.str s) rest pos).1,
               .node (updateField fs (if po = "class" then "class_" else po)
                 (resolveGo (.str s) rest pos).2))
          | _ =>
            if (if po = "class" then "class_" else po) = "inputBinding" then
              match val with
              | .node bfs =>
                if (lookupField bfs "position").isNone then
                  ((resolveGo (.node (bfs ++ [("position", .int 0)])) rest pos).1,
                   .node (updateField fs (if po = "class" then "class_" else po)
                     (resolveGo (.node (bfs ++ [("position", .int 0)])) rest pos).2))
                else
                  ((resolveGo (.node bfs) rest pos).1,
                   .node (updateField fs (if po = "class" then "class_" else po)
                     (resolveGo (.node bfs) rest pos).2))
              | _ => (.error .attrError, cur)
            else
              ((resolveGo val rest pos).1,
               .node (updateField fs (if po = "class" then "class_" else po)
                 (resolveGo val rest pos).2))
      | _ => (.error .attrError, cur)

/-- `inspect_position(cwl, pos)`: `.` is the document itself; otherwise
strip the leading separator, split on `.`, and walk the segments.
Returns the result together with the (possibly position-filled) document. -/
def inspect_position (cwl : Value) (pos : String) :
    (Except Err Value) × Value :=
  if pos = "." then (.ok cwl, cwl)
  else resolveGo cwl (pathSegs pos) pos

/-- `inspect_get(cwl, pos, default)`: swallow every exception and return
the default.  In-place mutations performed before the exception persist,
hence the document is threaded through. -/
def inspect_get (cwl : Value) (pos : String) (default : Value) :
    Value × Value :=
  match inspect_position cwl pos with
  | (.ok v, d) => (v, d)
  | (.error _, d) => (default, d)

/-- Python `==` against a string literal: true exactly on that string
(comparisons across types are `False`, never an error). -/
def pyEqStr (v : Value) (s : String) : Bool :=
  match v with
  | .str t => t = s
  | _ => false

/-- Python `is None`. -/
def isNullV : Value → Bool
  | .null => true
  | _ => false

/-- Python truthiness (`if not inspect_get(cwl, pos)`): `None`, `False`,
`0`, the empty string and the empty list are falsy; objects are truthy. -/
def pyTruthy : Value → Bool
  | .null => false
  | .bool b => b
  | .int n => n != 0
  | .str s => s ≠ ""
  | .list vs => !vs.isEmpty
  | .node _ => true

/-- The execution environment: `env['runtime']['outdir']` and
`env['runtime']['tmpdir']` (absolute paths or `None`).  The opaque
`env['args']` mapping is never read by the components in scope and is
omitted. -/
structure Env where
  outdir : Option String
  tmpdir : Option String

/-- Two-argument `os.path.join` on POSIX: an absolute second component
replaces the first; otherwise the two are joined with a single `/`. -/
def osPathJoin (d f : String) : String :=
  if strStartsWith f "/" then f
  else if d = "" then f
  else if strEndsWith d "/" then d ++ f
  else d ++ "/" ++ f

/-- `glob.escape`: wrap each of `?`, `*`, `[` in brackets.  A pattern is
left unexpanded by `ls_outputs_for_command` exactly when escaping
changes it. -/
def globEscape (s : String) : String :=
  String.join (s.toList.map fun c =>
    if c = '?' ∨ c = '*' ∨ c = '[' then String.mk ['[', c, ']']
    else String.mk [c])

/-- `instantiate_context(cwl, name, env)`: a stub that returns `name`
unchanged. -/
def instantiate_context (_cwl : Value) (name : String) (_env : Env) : String :=
  name

/-- `to_command(cwl, env)`: an unimplemented stub; the Python body is
`pass`, so the call returns `None`. -/
def to_command (_cwl : Value) (_env : Env) : Value :=
  .null

/-- `to_step_command(cwl, obj, env)`: an unimplemented stub returning
`None`. -/
def to_step_command (_cwl : Value) (_obj : String) (_env : Env) : Value :=
  .null

/-- `cwl.class_`: attribute access on the document; raises
`AttributeError` when the attribute is missing or the value is not an
object. -/
def getClass (cwl : Value) : Except Err Value :=
  match cwl with
  | .node fs =>
    match lookupField fs "class_" with
    | some v => .ok v
    | none => .error .attrError
  | _ => .error .attrError

/-- The ids gathered by `[f.id for f in obj if 'id' in f.__dict__]`.
Looking up `'id' in f.__dict__` on a non-object raises `AttributeError`.
Python's `sorted` raises `TypeError` on values that do not compare; the
ids of the documents in scope are strings, and a non-string id is mapped
to that error. -/
def collectIds : List Value → Except Err (List String)
  | [] => .ok []
  | f :: rest =>
    match f with
    | .node fs =>
      match lookupField fs "id" with
      | some (.str s) => (collectIds rest).map (s :: ·)
      | some _ => .error .typeError
      | none => collectIds rest
    | _ => .error .attrError

/-- `sorted` on a list of strings: lexicographic ascending, stable. -/
def pySorted (l : List String) : List String :=
  l.insertionSort (· ≤ ·)

/-- The `keys(<path>)` branch of `inspect`: resolve the inner path, then
list either the sorted full `id`s of a list's elements or the sorted
attribute names of an object.  `obj.__dict__` on a scalar raises
`AttributeError`. -/
def inspect_keys (cwl : Value) (inner : String) : Except Err Value :=
  match inspect_position cwl inner with
  | (.error e, _) => .error e
  | (.ok obj, _) =>
    match obj with
    | .list vs => (collectIds vs).map fun ids => .list ((pySorted ids).map .str)
    | .node fs => .ok (.list ((pySorted (fs.map (·.1))).map .str))
    | _ => .error .attrError

/-- `ls_outputs_for_command(cwl, pos, env)`.  `fsGlob` is the filesystem
oracle standing for `glob.glob`; the core never interprets its answers.
Each `inspect_get` call may fill `inputBinding.position` defaults in
place, so the document is threaded from call to call exactly as the
shared Python object would be. -/
def ls_outputs_for_command (fsGlob : String → List String) (cwl : Value)
    (pos : String) (env : Env) : Except Err Value :=
  let p1 := inspect_get cwl pos .null
  if !pyTruthy p1.1 then .error (.invalidPos pos)
  else
    let directory := env.outdir
    let p2 := inspect_get p1.2 (pos ++ ".type") (.str "")
    if pyEqStr p2.1 "stdout" then
      let p3 := inspect_get p2.2 ".stdout" (.str "$randomized_filename")
      match p3.1 with
      | .str fname =>
        let fname := instantiate_context p3.2 fname env
        match directory with
        | none => .ok (.str fname)
        | some dir => .ok (.str (osPathJoin dir fname))
      | _ => .error .typeError
    else
      let p3 := inspect_get p2.2 (pos ++ ".outputBinding") .null
      if isNullV p3.1 then .error .unsupportedOutput
      else match p3.1 with
      | .node obfs =>
        match lookupField obfs "glob" with
        | some (.str pat) =>
          let pat := instantiate_context p3.2 pat env
          if globEscape pat = pat then
            match directory with
            | none => .ok (.list ((fsGlob pat).map .str))
            | some dir => .ok (.list ((fsGlob (osPathJoin dir pat)).map .str))
          else .ok (.str pat)
        | some _ => .error .typeError
        | none => .ok .null
      | _ => .error .attrError

/-- Does `re.match('^keys\((.+)\)$', pos)` succeed?  The prefix is five
characters, the suffix one, and the group must be non-empty. -/
def keysArgOf (pos : String) : Option String :=
  if strEndsWith pos ")" ∧ 7 ≤ strLength pos then
    some (strDropRight (strDrop pos 5) 1)
  else none

/-- Does `re.match('^commandline\((.+)\)$', pos)` succeed? -/
def commandlineArgOf (pos : String) : Option String :=
  if strEndsWith pos ")" ∧ 14 ≤ strLength pos then
    some (strDropRight (strDrop pos 12) 1)
  else none

/-- Does `re.match('^ls\((.+)\)$', pos)` succeed? -/
def lsArgOf (pos : String) : Option String :=
  if strEndsWith pos ")" ∧ 5 ≤ strLength pos then
    some (strDropRight (strDrop pos 3) 1)
  else none

/-- `inspect(cwl, pos, env)`: the query dispatcher.  Branches are tried
in source order on the shape of `pos`; a failed anchored regex leaves
`re.match` returning `None`, and the immediate `.group(1)` on it raises
`AttributeError`. -/
def inspect (fsGlob : String → List String) (cwl : Value) (pos : String)
    (env : Env) : Except Err Value :=
  if strStartsWith pos "." then (inspect_position cwl pos).1
  else if strStartsWith pos "keys(" then
    match keysArgOf pos with
    | some inner => inspect_keys cwl inner
    | none => .error .attrError
  else if pos = "commandline" then
    match getClass cwl with
    | .error e => .error e
    | .ok (.str "CommandLineTool") => .ok (to_command cwl env)
    | .ok _ => .error (.usage "commandline for Workflow needs an argument")
  else if strStartsWith pos "commandline(" then
    match getClass cwl with
    | .error e => .error e
    | .ok (.str "Workflow") =>
      match commandlineArgOf pos with
      | some obj => .ok (to_step_command cwl obj env)
      | none => .error .attrError
    | .ok _ =>
      .error (.usage "commandline for CommandLineTool does not need an argument")
  else if strStartsWith pos "ls(.outputs." then
    match getClass cwl with
    | .error e => .error e
    | .ok (.str "Workflow") => .error (.notImplemented "Not yet implemented it for Workflow")
    | .ok (.str "CommandLineTool") =>
      match lsArgOf pos with
      | some obj => ls_outputs_for_command fsGlob cwl obj env
      | none => .error .attrError
    | .ok _ => .error .unsupportedClass
  else if strStartsWith pos "ls(.steps.)" then
    match getClass cwl with
    | .error e => .error e
    | .ok (.str "Workflow") => .error (.notImplemented "Not yet implemented")
    | .ok _ => .error (.usage "ls outputs for steps does not work for CommandLineTool")
  else .error (.unknownQuery pos)

/-- Is the value a Python list? -/
def Value.isList : Value → Bool
  | .list _ => true
  | _ => false

/-- The basename of an element's `id`, when the element is an object
with a string `id`. -/
def idBasename : Value → Option String
  | .node fs =>
    match lookupField fs "id" with
    | some (.str s) => some (basename s)
    | _ => none
  | _ => none

/-- A segment `s` cannot be resolved against the value `v`: an integer
segment into a non-list or past the end, an identifier that matches no
element's `id` basename in a list whose elements all carry string ids,
or a name not declared on a record (after the `class` alias). -/
def Unresolvable (v : Value) (s : String) : Prop :=
  (isIntSeg s = true ∧
    (v.isList = false ∨ ∃ vs, v = .list vs ∧ vs.length ≤ segToNat s)) ∨
  (isIntSeg s = false ∧ ∃ vs, v = .list vs ∧
    ∀ f ∈ vs, ∃ gfs g, f = .node gfs ∧
      lookupField gfs "id" = some (.str g) ∧ basename g ≠ s) ∨
  (isIntSeg s = false ∧ ∃ fs, v = .node fs ∧
    lookupField fs (if s = "class" then "class_" else s) = none)

/-- The raw name listing underlying the Field Enumerator, before
sorting: full `id`s of a list's elements, or an object's attribute
names. -/
def keySource : Value → Except Err (List String)
  | .list vs => collectIds vs
  | .node fs => .ok (fs.map (·.1))
  | _ => .error .attrError

/-- `d'` differs from `d` at most by normalization rule B: zero or more
nested writes, each filling a missing `position` attribute of an
`inputBinding` field's object with `0`.  No other field is created,
removed, or modified. -/
inductive FrameOK : Value → Value → Prop
  | refl (v : Value) : FrameOK v v
  | trans {a b c : Value} : FrameOK a b → FrameOK b c → FrameOK a c
  | listSet (vs : List Value) (i : Nat) (h : i < vs.length) (v' : Value) :
      FrameOK (vs.get ⟨i, h⟩) v' → FrameOK (.list vs) (.list (vs.set i v'))
  | fieldUpd (fs : List (String × Value)) (k : String) (v v' : Value) :
      lookupField fs k = some v → FrameOK v v' →
      FrameOK (.node fs) (.node (updateField fs k v'))
  | fill (fs : List (String × Value)) (bfs : List (String × Value)) :
      lookupField fs "inputBinding" = some (.node bfs) →
      lookupField bfs "position" = none →
      FrameOK (.node fs) (.node (updateField fs "inputBinding"
        (.node (bfs ++ [("position", Value.int 0)]))))

/-- The `inputBinding` node of the example input (no `position`). -/
def bindFields : List (String × Value) :=
  [("prefix", .str "-a")]

/-- Fields of the example input node. -/
def alphaFields : List (String × Value) :=
  [("id", .str "#/alpha"), ("label", .str "A"),
   ("inputBinding", .node bindFields)]

/-- The example `outputs` list: a `stdout`-typed output and a `File`
output whose `outputBinding` has no `glob`. -/
def outputsVal : Value :=
  .list [
    .node [("id", .str "#/out1"), ("type", .str "stdout")],
    .node [("id", .str "#/out2"), ("type", .str "File"),
           ("outputBinding", .node [("loadContents", .bool true)])]]

/-- Fields of a small concrete CommandLineTool document, in the shape
produced by the external parser for the bundled echo example. -/
def toolFields : List (String × Value) :=
  [("class_", .str "CommandLineTool"),
   ("basecommand", .str "echo"),
   ("inputs", .list [.node alphaFields]),
   ("outputs", outputsVal)]

/-- The concrete example document. -/
def toolDoc : Value := .node toolFields

/-- A concrete environment with both directories configured. -/
def sampleEnv : Env := ⟨some "/out", some "/tmp"⟩

/-- A filesystem oracle that matches nothing. -/
def noGlob : String → List String := fun _ => []

end CwlInspector

namespace CwlInspector

/-! ## Helper lemmas -/

theorem lookupField_append_none {fs : List (String × Value)} {k : String}
    (h : lookupField fs k = none) (v : Value) :
    lookupField (fs ++ [(k, v)]) k = some v := by
  induction fs with
  | nil => simp [lookupField]
  | cons p rest ih =>
    simp only [lookupField, List.cons_append] at h ⊢
    split at h
    · exact absurd h (by simp)
    · simp only [*]
      exact ih h

theorem lookupField_updateField_self {fs : List (String × Value)} {k : String}
    {v : Value} (h : lookupField fs k = some v) (w : Value) :
    lookupField (updateField fs k w) k = some w := by
  induction fs with
  | nil => simp [lookupField] at h
  | cons p rest ih =>
    obtain ⟨k', v'⟩ := p
    by_cases hk : k' = k
    · subst hk
      simp [lookupField, updateField]
    · simp only [lookupField, updateField, if_neg hk] at h ⊢
      exact ih h

theorem updateField_updateField (fs : List (String × Value)) (k : String)
    (v w : Value) : updateField (updateField fs k v) k w = updateField fs k w := by
  induction fs with
  | nil => simp [updateField]
  | cons p rest ih =>
    simp only [updateField]
    split
    · simp [updateField, *]
    · simp [updateField, *]

theorem resolveGo_append (ys : List String) :
    ∀ (xs : List String) (d v : Value) (pos : String),
      (resolveGo d xs pos).1 = .ok v →
      (resolveGo d (xs ++ ys) pos).1 = (resolveGo v ys pos).1 := by
  intro xs
  induction xs with
  | nil =>
    intro d v pos h
    simp only [resolveGo] at h
    cases h
    rw [List.nil_append]
  | cons po xs' ih =>
    intro d v pos h
    rw [List.cons_append]
    by_cases hint : isIntSeg po = true
    · cases d with
      | list vs =>
        simp only [resolveGo, hint, if_true] at h ⊢
        by_cases hlt : segToNat po < vs.length
        · rw [dif_pos hlt] at h ⊢
          exact ih _ _ _ h
        · rw [dif_neg hlt] at h
          exact absurd h (by simp)
      | null =>
        simp only [resolveGo, hint, if_true] at h
        exact absurd h (by simp)
      | bool b =>
        simp only [resolveGo, hint, if_true] at h
        exact absurd h (by simp)
      | int n =>
        simp only [resolveGo, hint, if_true] at h
        exact absurd h (by simp)
      | str s =>
        simp only [resolveGo, hint, if_true] at h
        exact absurd h (by simp)
      | node fs =>
        simp only [resolveGo, hint, if_true] at h
        exact absurd h (by simp)
    · rw [Bool.not_eq_true] at hint
      cases d with
      | list vs =>
        simp only [resolveGo, hint, Bool.false_eq_true, if_false] at h ⊢
        cases hfb : findById vs po with
        | ok o =>
          cases o with
          | some i =>
            simp only [hfb] at h ⊢
            by_cases hlt : i < vs.length
            · rw [dif_pos hlt] at h ⊢
              exact ih _ _ _ h
            · rw [dif_neg hlt] at h
              exact absurd h (by simp)
          | none =>
            simp only [hfb] at h
            exact absurd h (by simp)
        | error e =>
          simp only [hfb] at h
          exact absurd h (by simp)
      | node fs =>
        simp only [resolveGo, hint, Bool.false_eq_true, if_false] at h ⊢
        cases hlf : lookupField fs (if po = "class" then "class_" else po) with
        | none =>
          simp only [hlf] at h
          exact absurd h (by simp)
        | some val =>
          simp only [hlf] at h ⊢
          cases val with
          | str s =>
            by_cases hbc : (if po = "class" then "class_" else po) = "basecommand"
            · simp only [hbc, if_true] at h ⊢
              exact ih _ _ _ h
            · by_cases hib : (if po = "class" then "class_" else po) = "inputBinding"
              · simp only [if_neg hbc, hib, if_true] at h
                exact absurd h (by simp)
              · simp only [if_neg hbc, if_neg hib] at h ⊢
                exact ih _ _ _ h
          | node bfs =>
            by_cases hib : (if po = "class" then "class_" else po) = "inputBinding"
            · simp only [hib, if_true] at h ⊢
              by_cases hpn : (lookupField bfs "position").isNone = true
              · simp only [hpn, if_true] at h ⊢
                exact ih _ _ _ h
              · simp only [hpn, Bool.false_eq_true, if_false] at h ⊢
                exact ih _ _ _ h
            · simp only [if_neg hib] at h ⊢
              exact ih _ _ _ h
          | null =>
            by_cases hib : (if po = "class" then "class_" else po) = "inputBinding"
            · simp only [hib, if_true] at h
              exact absurd h (by simp)
            · simp only [if_neg hib] at h ⊢
              exact ih _ _ _ h
          | bool b =>
            by_cases hib : (if po = "class" then "class_" else po) = "inputBinding"
            · simp only [hib, if_true] at h
              exact absurd h (by simp)
            · simp only [if_neg hib] at h ⊢
              exact ih _ _ _ h
          | int n =>
            by_cases hib : (if po = "class" then "class_" else po) = "inputBinding"
            · simp only [hib, if_true] at h
              exact absurd h (by simp)
            · simp only [if_neg hib] at h ⊢
              exact ih _ _ _ h
          | list ws =>
            by_cases hib : (if po = "class" then "class_" else po) = "inputBinding"
            · simp only [hib, if_true] at h
              exact absurd h (by simp)
            · simp only [if_neg hib] at h ⊢
              exact ih _ _ _ h
      | null =>
        simp only [resolveGo, hint, Bool.false_eq_true, if_false] at h
        exact absurd h (by simp)
      | bool b =>
        simp only [resolveGo, hint, Bool.false_eq_true, if_false] at h
        exact absurd h (by simp)
      | int n =>
        simp only [resolveGo, hint, Bool.false_eq_true, if_false] at h
        exact absurd h (by simp)
      | str s =>
        simp only [resolveGo, hint, Bool.false_eq_true, if_false] at h
        exact absurd h (by simp)

theorem resolveGo_frame :
    ∀ (segs : List String) (cur : Value) (pos : String),
      FrameOK cur (resolveGo cur segs pos).2 := by
  intro segs
  induction segs with
  | nil => intro cur pos; exact FrameOK.refl _
  | cons po rest ih =>
    intro cur pos
    by_cases hint : isIntSeg po = true
    · cases cur with
      | list vs =>
        simp only [resolveGo, hint, if_true]
        by_cases hlt : segToNat po < vs.length
        · rw [dif_pos hlt]
          exact FrameOK.listSet vs _ hlt _ (ih _ _)
        · rw [dif_neg hlt]
          exact FrameOK.refl _
      | null => simp only [resolveGo, hint, if_true]; exact FrameOK.refl _
      | bool b => simp only [resolveGo, hint, if_true]; exact FrameOK.refl _
      | int n => simp only [resolveGo, hint, if_true]; exact FrameOK.refl _
      | str s => simp only [resolveGo, hint, if_true]; exact FrameOK.refl _
      | node fs => simp only [resolveGo, hint, if_true]; exact FrameOK.refl _
    · rw [Bool.not_eq_true] at hint
      cases cur with
      | list vs =>
        simp only [resolveGo, hint, Bool.false_eq_true, if_false]
        cases hfb : findById vs po with
        | ok o =>
          cases o with
          | some i =>
            simp only [hfb]
            by_cases hlt : i < vs.length
            · rw [dif_pos hlt]
              exact FrameOK.listSet vs _ hlt _ (ih _ _)
            · rw [dif_neg hlt]
              exact FrameOK.refl _
          | none => simp only [hfb]; exact FrameOK.refl _
        | error e => simp only [hfb]; exact FrameOK.refl _
      | node fs =>
        simp only [resolveGo, hint, Bool.false_eq_true, if_false]
        cases hlf : lookupField fs (if po = "class" then "class_" else po) with
        | none => simp only [hlf]; exact FrameOK.refl _
        | some val =>
          simp only [hlf]
          cases val with
          | str s =>
            by_cases hbc : (if po = "class" then "class_" else po) = "basecommand"
            · simp only [hbc, if_true]
              exact FrameOK.refl _
            · by_cases hib : (if po = "class" then "class_" else po) = "inputBinding"
              · simp only [if_neg hbc, hib, if_true]
                exact FrameOK.refl _
              · simp only [if_neg hbc, if_neg hib]
                exact FrameOK.fieldUpd fs _ _ _ hlf (ih _ _)
          | node bfs =>
            by_cases hib : (if po = "class" then "class_" else po) = "inputBinding"
            · rw [hib] at hlf
              simp only [hib, if_true]
              by_cases hpn : (lookupField bfs "position").isNone = true
              · simp only [hpn, if_true]
                have hfill := FrameOK.fill fs bfs hlf
                  (Option.isNone_iff_eq_none.mp hpn)
                have hlf2 := lookupField_updateField_self hlf
                  (Value.node (bfs ++ [("position", Value.int 0)]))
                have hupd := FrameOK.fieldUpd _ "inputBinding" _ _ hlf2
                  (ih (Value.node (bfs ++ [("position", Value.int 0)])) pos)
                rw [updateField_updateField] at hupd
                exact FrameOK.trans hfill hupd
              · simp only [hpn, Bool.false_eq_true, if_false]
                exact FrameOK.fieldUpd fs _ _ _ hlf (ih _ _)
            · simp only [if_neg hib]
              exact FrameOK.fieldUpd fs _ _ _ hlf (ih _ _)
          | null =>
            by_cases hib : (if po = "class" then "class_" else po) = "inputBinding"
            · simp only [hib, if_true]
              exact FrameOK.refl _
            · simp only [if_neg hib]
              exact FrameOK.fieldUpd fs _ _ _ hlf (ih _ _)
          | bool b =>
            by_cases hib : (if po = "class" then "class_" else po) = "inputBinding"
            · simp only [hib, if_true]
              exact FrameOK.refl _
            · simp only [if_neg hib]
              exact FrameOK.fieldUpd fs _ _ _ hlf (ih _ _)
          | int n =>
            by_cases hib : (if po = "class" then "class_" else po) = "inputBinding"
            · simp only [hib, if_true]
              exact FrameOK.refl _
            · simp only [if_neg hib]
              exact FrameOK.fieldUpd fs _ _ _ hlf (ih _ _)
          | list ws =>
            by_cases hib : (if po = "class" then "class_" else po) = "inputBinding"
            · simp only [hib, if_true]
              exact FrameOK.refl _
            · simp only [if_neg hib]
              exact FrameOK.fieldUpd fs _ _ _ hlf (ih _ _)
      | null =>
        simp only [resolveGo, hint, Bool.false_eq_true, if_false]
        exact FrameOK.refl _
      | bool b =>
        simp only [resolveGo, hint, Bool.false_eq_true, if_false]
        exact FrameOK.refl _
      | int n =>
        simp only [resolveGo, hint, Bool.false_eq_true, if_false]
        exact FrameOK.refl _
      | str s =>
        simp only [resolveGo, hint, Bool.false_eq_true, if_false]
        exact FrameOK.refl _

theorem findById_none {vs : List Value} {po : String}
    (h : ∀ f ∈ vs, ∃ gfs g, f = .node gfs ∧
      lookupField gfs "id" = some (.str g) ∧ basename g ≠ po) :
    findById vs po = .ok none := by
  induction vs with
  | nil => rfl
  | cons f rest ih =>
    obtain ⟨gfs, g, rfl, hid, hne⟩ := h f (List.mem_cons_self _ _)
    simp only [findById, hid, if_neg hne]
    rw [ih fun f hf => h f (List.mem_cons_of_mem _ hf)]
    rfl

end CwlInspector

namespace CwlInspector

theorem inspect_get_of_error {cwl : Value} {pos : String} {e : Err}
    (h : (inspect_position cwl pos).1 = .error e) (default : Value) :
    inspect_get cwl pos default = (default, (inspect_position cwl pos).2) := by
  unfold inspect_get
  rcases hp : inspect_position cwl pos with ⟨r, d⟩
  rw [hp] at h
  simp only at h
  subst h
  rfl

theorem inspect_get_of_ok {cwl : Value} {pos : String} {v : Value}
    (h : (inspect_position cwl pos).1 = .ok v) (default : Value) :
    inspect_get cwl pos default = (v, (inspect_position cwl pos).2) := by
  unfold inspect_get
  rcases hp : inspect_position cwl pos with ⟨r, d⟩
  rw [hp] at h
  simp only at h
  subst h
  rfl

/-- C9: resolving any path leaves the document unchanged except for
normalization rule B: the updated document reachable after a
`inspect_position` query differs from the original at most by writes
that fill a missing `position` attribute of an `inputBinding` node with
`0` (`FrameOK`).  This holds whether the resolution succeeds or raises.
The Resolver and Enumerator never receive the environment, so they
cannot mutate it; the embedding is a pure function of the document. -/
theorem resolver_frame_condition (doc : Value) (pos : String) :
    FrameOK doc (inspect_position doc pos).2 := by
  unfold inspect_position
  by_cases hdot : pos = "."
  · rw [if_pos hdot]
    exact FrameOK.refl _
  · rw [if_neg hdot]
    exact resolveGo_frame _ _ _

/-- C2: a record whose `basecommand` field holds a single string:
resolving a path whose final segment is that field yields the one-element
list wrapping the scalar (normalization rule A). -/
theorem basecommand_scalar_wrapped (doc : Value) (pos : String)
    (xs : List String) (fs : List (String × Value)) (s : String)
    (hpos : pos ≠ ".")
    (hsplit : pathSegs pos = xs ++ ["basecommand"])
    (hok : (resolveGo doc xs pos).1 = .ok (.node fs))
    (hbc : lookupField fs "basecommand" = some (.str s)) :
    (inspect_position doc pos).1 = .ok (.list [.str s]) := by
  have h1 : isIntSeg "basecommand" = false := by decide
  simp only [inspect_position, if_neg hpos, hsplit]
  rw [resolveGo_append _ xs doc _ pos hok]
  simp [resolveGo, hbc, h1]

/-- C3: once a segment is unresolvable — an integer segment into a
non-list or out of range, an identifier matching no element's `id`
basename, or a name not declared on the record — the whole resolution
fails with the `No such field` error carrying the full requested path,
whatever segments follow; it never returns a value. -/
theorem unresolvable_segment_fails (doc : Value) (pos : String)
    (xs ys : List String) (s : String) (v : Value)
    (hpos : pos ≠ ".")
    (hsplit : pathSegs pos = xs ++ s :: ys)
    (hok : (resolveGo doc xs pos).1 = .ok v)
    (hun : Unresolvable v s) :
    (inspect_position doc pos).1 = .error (.noSuchField pos) := by
  simp only [inspect_position, if_neg hpos, hsplit]
  rw [resolveGo_append _ xs doc v pos hok]
  rcases hun with ⟨hint, hnl | ⟨vs, rfl, hlen⟩⟩ | ⟨hint, vs, rfl, hall⟩ |
    ⟨hint, fs, rfl, hnone⟩
  · cases v with
    | list vs => simp [Value.isList] at hnl
    | null => simp [resolveGo, hint]
    | bool b => simp [resolveGo, hint]
    | int n => simp [resolveGo, hint]
    | str t => simp [resolveGo, hint]
    | node fs => simp [resolveGo, hint]
  · simp only [resolveGo, hint, if_true]
    rw [dif_neg (by omega)]
  · have hfb := findById_none hall
    simp [resolveGo, hint, hfb]
  · simp [resolveGo, hint, hnone]

/-- C5: a record with an `inputBinding` object lacking a `position`
attribute: resolving that field writes `position := 0` onto the node
(visible in both the returned node and the updated document), and
resolving the same field again on the updated document returns the same
default-filled node and changes nothing further — the default fill is
idempotent memoization. -/
theorem inputBinding_position_memoized (fs bfs : List (String × Value))
    (pos : String)
    (hib : lookupField fs "inputBinding" = some (.node bfs))
    (hnp : lookupField bfs "position" = none) :
    lookupField (bfs ++ [("position", Value.int 0)]) "position"
      = some (Value.int 0) ∧
    resolveGo (.node fs) ["inputBinding"] pos =
      (.ok (.node (bfs ++ [("position", Value.int 0)])),
       .node (updateField fs "inputBinding"
         (.node (bfs ++ [("position", Value.int 0)])))) ∧
    resolveGo (.node (updateField fs "inputBinding"
        (.node (bfs ++ [("position", Value.int 0)])))) ["inputBinding"] pos =
      (.ok (.node (bfs ++ [("position", Value.int 0)])),
       .node (updateField fs "inputBinding"
         (.node (bfs ++ [("position", Value.int 0)])))) := by
  have h1 : isIntSeg "inputBinding" = false := by decide
  refine ⟨lookupField_append_none hnp _, ?_, ?_⟩
  · simp [resolveGo, h1, hib, hnp]
  · have hlf2 := lookupField_updateField_self hib
      (Value.node (bfs ++ [("position", Value.int 0)]))
    have hpv := lookupField_append_none hnp (Value.int 0)
    simp [resolveGo, h1, hlf2, hpv, updateField_updateField]

end CwlInspector

namespace CwlInspector

/-- C1 (counterexample): on a concrete CommandLineTool document, the
`commandline` query does not fail with any error; it silently returns
the stub's `None`, contradicting the claim that it fails
`NotImplemented` and never returns an empty result. -/
theorem commandline_tool_returns_none_cex :
    inspect noGlob toolDoc "commandline" sampleEnv = .ok Value.null := rfl

/-- C1 (amended): for every document whose class is `CommandLineTool`
and every environment, `inspect(document, "commandline", env)` succeeds
and returns `None` — the unimplemented `to_command` stub falls through
with no return value; no `NotImplemented` error is raised. -/
theorem commandline_stub_returns_none (fsGlob : String → List String)
    (cwl : Value) (env : Env)
    (h : getClass cwl = .ok (.str "CommandLineTool")) :
    inspect fsGlob cwl "commandline" env = .ok Value.null := by
  have e1 : strStartsWith "commandline" "." = false := by decide
  have e2 : strStartsWith "commandline" "keys(" = false := by decide
  simp [inspect, e1, e2, h, to_command]

theorem commandline_stub_returns_none_witness :
    getClass toolDoc = .ok (.str "CommandLineTool") ∧
    inspect noGlob toolDoc "commandline" sampleEnv = .ok Value.null :=
  ⟨rfl, commandline_stub_returns_none noGlob toolDoc sampleEnv rfl⟩

/-- C4: for a document whose `inputs` list is non-empty, where every
input is a node carrying a string `id`, the `id` basenames are pairwise
distinct, and the basename of the first input's `id` is not an integer
literal, index-based access `.inputs.0` and identifier-based access
`.inputs.<basename>` resolve to the same node; the lookup compares the
basename of each candidate's `id`, never the full identifier. -/
theorem index_id_access_agree (doc : Value) (dfs : List (String × Value))
    (l : List Value) (f0 : Value) (nfs : List (String × Value)) (id0 : String)
    (pos1 pos2 : String)
    (hdoc : doc = .node dfs)
    (hin : lookupField dfs "inputs" = some (.list (f0 :: l)))
    (hf0 : f0 = .node nfs)
    (hid : lookupField nfs "id" = some (.str id0))
    (hnotint : isIntSeg (basename id0) = false)
    (hids : ∀ f ∈ f0 :: l, (idBasename f).isSome)
    (huniq : (f0 :: l).Pairwise (fun a b => idBasename a ≠ idBasename b))
    (hp1 : pos1 ≠ ".") (hs1 : pathSegs pos1 = ["inputs", "0"])
    (hp2 : pos2 ≠ ".") (hs2 : pathSegs pos2 = ["inputs", basename id0]) :
    (inspect_position doc pos1).1 = .ok f0 ∧
    (inspect_position doc pos2).1 = .ok f0 := by
  subst hdoc
  subst hf0
  have hI : isIntSeg "inputs" = false := by decide
  have h0 : isIntSeg "0" = true := by decide
  have h00 : segToNat "0" = 0 := by decide
  constructor
  · simp only [inspect_position, if_neg hp1, hs1]
    simp [resolveGo, hI, hin, h0, h00]
  · simp only [inspect_position, if_neg hp2, hs2]
    simp [resolveGo, hI, hin, hnotint, findById, hid]

theorem index_id_access_agree_witness :
    lookupField toolFields "inputs" = some (.list [.node alphaFields]) ∧
    lookupField alphaFields "id" = some (.str "#/alpha") ∧
    isIntSeg (basename "#/alpha") = false ∧
    (inspect_position toolDoc ".inputs.0").1 = .ok (.node alphaFields) ∧
    (inspect_position toolDoc ".inputs.alpha").1 = .ok (.node alphaFields) := by
  refine ⟨rfl, rfl, by decide, ?_⟩
  exact index_id_access_agree toolDoc toolFields [] (.node alphaFields)
    alphaFields "#/alpha" ".inputs.0" ".inputs.alpha" rfl rfl rfl rfl
    (by decide) (by decide) (by simp) (by decide) (by decide) (by decide)
    (by decide)

/-- C6: when the resolved value is a list, the Field Enumerator returns
the full `id` (not the basename) of every element that declares one,
lexicographically sorted ascending; when it is a record, the sorted list
of its declared attribute names.  The output is a sorted permutation of
the raw name listing, so it is deterministic regardless of declaration
order. -/
theorem keys_sorted_listing (doc : Value) (path : String) (obj : Value)
    (ids : List String)
    (hobj : (inspect_position doc path).1 = .ok obj)
    (hids : keySource obj = .ok ids) :
    inspect_keys doc path = .ok (.list ((pySorted ids).map Value.str)) ∧
    List.Sorted (· ≤ ·) (pySorted ids) ∧
    (pySorted ids).Perm ids := by
  refine ⟨?_, List.sorted_insertionSort _ _, List.perm_insertionSort _ _⟩
  unfold inspect_keys
  rcases hp : inspect_position doc path with ⟨r, d⟩
  rw [hp] at hobj
  simp only at hobj
  subst hobj
  cases obj with
  | list vs =>
    simp only [keySource] at hids
    simp [hids, Except.map]
  | node fs =>
    simp only [keySource] at hids
    cases hids
    rfl
  | null => simp [keySource] at hids
  | bool b => simp [keySource] at hids
  | int n => simp [keySource] at hids
  | str s => simp [keySource] at hids

theorem keys_sorted_listing_witness :
    (inspect_position toolDoc ".outputs").1 = .ok outputsVal ∧
    keySource outputsVal = .ok ["#/out1", "#/out2"] ∧
    (inspect_keys toolDoc ".outputs"
        = .ok (.list ((pySorted ["#/out1", "#/out2"]).map Value.str)) ∧
      List.Sorted (· ≤ ·) (pySorted ["#/out1", "#/out2"]) ∧
      (pySorted ["#/out1", "#/out2"]).Perm ["#/out1", "#/out2"]) :=
  ⟨rfl, rfl, keys_sorted_listing toolDoc ".outputs" outputsVal
    ["#/out1", "#/out2"] rfl rfl⟩

/-- C7 (counterexample): the malformed query `keys()` is not answered by
`UnknownQuery`: the dispatcher enters the `keys(` branch on the prefix
alone, the anchored regex fails to match, and `.group(1)` on `None`
raises `AttributeError` instead. -/
theorem keys_malformed_not_unknownquery_cex :
    inspect noGlob toolDoc "keys()" sampleEnv = .error Err.attrError ∧
    Err.attrError ≠ Err.unknownQuery "keys()" :=
  ⟨rfl, by decide⟩

/-- C7 (amended): a `pos` string that matches none of the recognized
prefixes — it does not start with `.`, `keys(`, `commandline(`,
`ls(.outputs.` or `ls(.steps.)` and is not `commandline` — fails with
`UnknownQuery` carrying the offending string.  Malformed function forms
that do carry a recognized prefix (such as `keys()` or an unclosed
`keys(.x`) instead fail with an attribute error from the failed regex
match. -/
theorem unknown_pos_unknownquery (fsGlob : String → List String)
    (cwl : Value) (env : Env) (pos : String)
    (h1 : strStartsWith pos "." = false)
    (h2 : strStartsWith pos "keys(" = false)
    (h3 : pos ≠ "commandline")
    (h4 : strStartsWith pos "commandline(" = false)
    (h5 : strStartsWith pos "ls(.outputs." = false)
    (h6 : strStartsWith pos "ls(.steps.)" = false) :
    inspect fsGlob cwl pos env = .error (.unknownQuery pos) := by
  simp only [inspect, h1, h2, h4, h5, h6, Bool.false_eq_true, if_false,
    if_neg h3]

theorem unknown_pos_unknownquery_witness :
    strStartsWith "bogus" "." = false ∧
    ("bogus" : String) ≠ "commandline" ∧
    inspect noGlob toolDoc "bogus" sampleEnv
      = .error (.unknownQuery "bogus") :=
  ⟨by decide, by decide,
   unknown_pos_unknownquery noGlob toolDoc sampleEnv "bogus" (by decide)
     (by decide) (by decide) (by decide) (by decide) (by decide)⟩

/-- C8: an output field whose `type` is `stdout` on a document with no
resolvable `.stdout` declaration: the Output Locator takes the
randomized placeholder filename, and returns it joined with
`env.runtime.outdir` when that is set, or bare when it is null. -/
theorem ls_stdout_placeholder (fsGlob : String → List String)
    (cwl : Value) (pos : String) (env : Env)
    (h1 : pyTruthy (inspect_get cwl pos Value.null).1 = true)
    (h2 : pyEqStr (inspect_get (inspect_get cwl pos Value.null).2
        (pos ++ ".type") (Value.str "")).1 "stdout" = true)
    (h3 : ∃ e, (inspect_position (inspect_get (inspect_get cwl pos
        Value.null).2 (pos ++ ".type") (Value.str "")).2 ".stdout").1
        = Except.error e) :
    ls_outputs_for_command fsGlob cwl pos env =
      .ok (.str (match env.outdir with
        | none => "$randomized_filename"
        | some dir => osPathJoin dir "$randomized_filename")) := by
  obtain ⟨e, he⟩ := h3
  obtain ⟨od, td⟩ := env
  cases od with
  | none =>
    simp only [ls_outputs_for_command, h1, Bool.not_true,
      Bool.false_eq_true, if_false, h2, if_true,
      inspect_get_of_error he, instantiate_context]
  | some dir =>
    simp only [ls_outputs_for_command, h1, Bool.not_true,
      Bool.false_eq_true, if_false, h2, if_true,
      inspect_get_of_error he, instantiate_context]

theorem ls_stdout_placeholder_witness :
    pyTruthy (inspect_get toolDoc ".outputs.out1" Value.null).1 = true ∧
    pyEqStr (inspect_get (inspect_get toolDoc ".outputs.out1"
        Value.null).2 (".outputs.out1" ++ ".type") (Value.str "")).1
      "stdout" = true ∧
    ls_outputs_for_command noGlob toolDoc ".outputs.out1" sampleEnv
      = .ok (.str "/out/$randomized_filename") :=
  ⟨rfl, rfl,
   ls_stdout_placeholder noGlob toolDoc ".outputs.out1" sampleEnv rfl rfl
     ⟨.noSuchField ".stdout", rfl⟩⟩

/-- C10: an output whose `type` is not `stdout` and whose
`outputBinding` is an object that declares no `glob` attribute: the
Output Locator falls off the end of the function and returns `None`
without raising — neither an `UnsupportedOutput` failure nor an empty
list. -/
theorem ls_no_glob_returns_none (fsGlob : String → List String)
    (cwl : Value) (pos : String) (env : Env)
    (obfs : List (String × Value))
    (h1 : pyTruthy (inspect_get cwl pos Value.null).1 = true)
    (h2 : pyEqStr (inspect_get (inspect_get cwl pos Value.null).2
        (pos ++ ".type") (Value.str "")).1 "stdout" = false)
    (h3 : (inspect_get (inspect_get (inspect_get cwl pos Value.null).2
        (pos ++ ".type") (Value.str "")).2 (pos ++ ".outputBinding")
        Value.null).1 = .node obfs)
    (h4 : lookupField obfs "glob" = none) :
    ls_outputs_for_command fsGlob cwl pos env = .ok Value.null := by
  simp only [ls_outputs_for_command, h1, Bool.not_true, Bool.false_eq_true,
    if_false, h2, h3, isNullV, h4]

theorem ls_no_glob_returns_none_witness :
    pyEqStr (inspect_get (inspect_get toolDoc ".outputs.out2"
        Value.null).2 (".outputs.out2" ++ ".type") (Value.str "")).1
      "stdout" = false ∧
    lookupField [("loadContents", Value.bool true)] "glob" = none ∧
    ls_outputs_for_command noGlob toolDoc ".outputs.out2" sampleEnv
      = .ok Value.null :=
  ⟨rfl, rfl,
   ls_no_glob_returns_none noGlob toolDoc ".outputs.out2" sampleEnv
     [("loadContents", Value.bool true)] rfl rfl rfl rfl⟩

end CwlInspector

namespace CwlInspector

theorem basecommand_scalar_wrapped_witness :
    pathSegs ".basecommand" = [] ++ ["basecommand"] ∧
    lookupField toolFields "basecommand" = some (.str "echo") ∧
    (inspect_position toolDoc ".basecommand").1 = .ok (.list [.str "echo"]) :=
  ⟨by decide, rfl,
   basecommand_scalar_wrapped toolDoc ".basecommand" [] toolFields "echo"
     (by decide) (by decide) rfl rfl⟩

theorem unresolvable_segment_fails_witness :
    pathSegs ".nope" = [] ++ "nope" :: [] ∧
    Unresolvable toolDoc "nope" ∧
    (inspect_position toolDoc ".nope").1 = .error (.noSuchField ".nope") :=
  ⟨by decide, Or.inr (Or.inr ⟨by decide, toolFields, rfl, rfl⟩),
   unresolvable_segment_fails toolDoc ".nope" [] [] "nope" toolDoc
     (by decide) (by decide) rfl
     (Or.inr (Or.inr ⟨by decide, toolFields, rfl, rfl⟩))⟩

theorem inputBinding_position_memoized_witness :
    lookupField alphaFields "inputBinding" = some (.node bindFields) ∧
    lookupField bindFields "position" = none ∧
    (lookupField (bindFields ++ [("position", Value.int 0)]) "position"
        = some (Value.int 0) ∧
     resolveGo (.node alphaFields) ["inputBinding"] ".x"
        = (.ok (.node (bindFields ++ [("position", Value.int 0)])),
           .node (updateField alphaFields "inputBinding"
             (.node (bindFields ++ [("position", Value.int 0)])))) ∧
     resolveGo (.node (updateField alphaFields "inputBinding"
          (.node (bindFields ++ [("position", Value.int 0)]))))
        ["inputBinding"] ".x"
        = (.ok (.node (bindFields ++ [("position", Value.int 0)])),
           .node (updateField alphaFields "inputBinding"
             (.node (bindFields ++ [("position", Value.int 0)]))))) :=
  ⟨rfl, rfl, inputBinding_position_memoized alphaFields bindFields ".x" rfl rfl⟩

end CwlInspector
